import Mathlib

/-!
Verification of the Week 3 exercise script (src/Week3/exercise_script.py).

The script is a linear GIS pipeline: load two shapefiles, reproject both to
EPSG:2157, spatially join wards to counties, aggregate the population column,
and render a map with a legend.  The only function defined by the script
itself is `generate_handles`; the reprojection, spatial join and group-by
aggregation are calls into the geopandas/pandas libraries, whose semantics we
model from the specification (each such definition is marked
"Modelled from the spec").
-/

/-- A matplotlib `Rectangle((0, 0), 1, 1, facecolor=…, edgecolor=…, alpha=…)`
patch as constructed inside `generate_handles`.  Colors are the color strings
passed by the caller; `alpha` is the opacity. -/
structure Handle where
  xy : Int × Int
  width : Int
  height : Int
  facecolor : String
  edgecolor : String
  alpha : ℚ
deriving Repr, DecidableEq

/-- Default value of the `edge` parameter of `generate_handles` (black). -/
def default_edge : String := "k"

/-- Default value of the `alpha` parameter of `generate_handles` (opaque). -/
def default_alpha : ℚ := 1

/-- The loop body of `generate_handles`, iterated over the index list
`range(len(labels))`.  Each step evaluates `colors[i % lc]`; in Python,
`i % 0` raises `ZeroDivisionError`, which the `Option` models: when
`colors = []` the lookup `colors.get? (i % 0) = colors.get? i` is `none`. -/
def build_handles (colors : List String) (edge : String) (alpha : ℚ) :
    List Nat → Option (List Handle)
  | [] => some []
  | i :: is => do
      let c ← colors.get? (i % colors.length)
      let rest ← build_handles colors edge alpha is
      pure (Handle.mk (0, 0) 1 1 c edge alpha :: rest)

/-- `generate_handles(labels, colors, edge='k', alpha=1)` from the script:
for `i in range(len(labels))` append a unit `Rectangle` with
`facecolor=colors[i % lc]`, `edgecolor=edge` and the given `alpha`.
Defaults (`default_edge`, `default_alpha`) are passed explicitly by callers. -/
def generate_handles (labels colors : List String) (edge : String) (alpha : ℚ) :
    Option (List Handle) :=
  build_handles colors edge alpha (List.range labels.length)

/-- Line 77 of the script: the county outlines are drawn with
`edgecolor='r'` (red). -/
def county_outline_edgecolor : String := "r"

/-- Line 81 of the script:
`county_handles = generate_handles([''], ['none'], edge='r')`. -/
def county_handles : Option (List Handle) :=
  generate_handles [""] ["none"] county_outline_edgecolor default_alpha

/-- The arguments of an `ax.legend(handles, labels, fontsize=…, loc=…,
framealpha=…)` call. -/
structure LegendCall where
  handles : List Handle
  labels : List String
  fontsize : Nat
  loc : String
  framealpha : ℚ
deriving Repr, DecidableEq

/-- Line 84 of the script:
`ax.legend(county_handles, ['County Boundaries'], fontsize=12, loc='upper left', framealpha=1)`,
with `county_handles` defined on line 81.  `none` here propagates a failure of
`generate_handles`. -/
def legend_call : Option LegendCall :=
  county_handles.map fun hs =>
    LegendCall.mk hs ["County Boundaries"] 12 "upper left" 1

-- ---------------------------------------------------------------------------
-- Helper lemmas about build_handles
-- ---------------------------------------------------------------------------

theorem build_handles_pos (colors : List String) (edge : String) (alpha : ℚ)
    (h : 0 < colors.length) (is : List Nat) :
    build_handles colors edge alpha is
      = some (is.map fun i =>
          Handle.mk (0, 0) 1 1 (colors.getD (i % colors.length) "") edge alpha) := by
  induction is with
  | nil => rfl
  | cons i is ih =>
      have hlt : i % colors.length < colors.length := Nat.mod_lt _ h
      have hget : colors[i % colors.length]?
          = some (colors.getD (i % colors.length) "") := by
        simp [List.getElem?_eq_getElem hlt, List.getD_eq_getElem?_getD]
      simp only [build_handles, List.get?_eq_getElem?, hget, ih, Option.some_bind,
        Option.bind_eq_bind, List.map_cons, Option.pure_def]

theorem build_handles_styling (colors : List String) (edge : String) (alpha : ℚ)
    (is : List Nat) (hs : List Handle)
    (h : build_handles colors edge alpha is = some hs) :
    ∀ hd ∈ hs, hd.edgecolor = edge ∧ hd.alpha = alpha := by
  induction is generalizing hs with
  | nil =>
      simp only [build_handles] at h
      cases h
      intro hd hmem
      cases hmem
  | cons i is ih =>
      simp only [build_handles, Option.bind_eq_bind, Option.bind_eq_some] at h
      obtain ⟨c, _, rest, hrest, hcons⟩ := h
      cases hcons
      intro hd hmem
      rcases List.mem_cons.mp hmem with hhd | hhd
      · subst hhd; exact ⟨rfl, rfl⟩
      · exact ih rest hrest hd hhd

-- ---------------------------------------------------------------------------
-- Claims about generate_handles
-- ---------------------------------------------------------------------------

/-- C1: for every non-empty colors list and every labels list,
`generate_handles(labels, colors, edge, alpha)` returns exactly
`len(labels)` handles, and the i-th handle (0-indexed) has fill color
`colors[i mod len(colors)]` — colors cycle when there are fewer colors than
labels. -/
theorem generate_handles_count_cycle (labels colors : List String)
    (edge : String) (alpha : ℚ) (h : 0 < colors.length) :
    ∃ hs, generate_handles labels colors edge alpha = some hs ∧
      hs.length = labels.length ∧
      ∀ i, i < labels.length →
        hs[i]? = some (Handle.mk (0, 0) 1 1
          (colors.getD (i % colors.length) "") edge alpha) := by
  refine ⟨_, build_handles_pos colors edge alpha h (List.range labels.length), ?_, ?_⟩
  · simp
  · intro i hi
    simp [List.getElem?_range hi]

theorem generate_handles_count_cycle_witness :
    ∃ hs, generate_handles ["a", "b", "c"] ["red", "blue"] "k" 1 = some hs ∧
      hs.length = (["a", "b", "c"] : List String).length ∧
      ∀ i, i < (["a", "b", "c"] : List String).length →
        hs[i]? = some (Handle.mk (0, 0) 1 1
          ((["red", "blue"] : List String).getD
            (i % (["red", "blue"] : List String).length) "") "k" 1) :=
  generate_handles_count_cycle ["a", "b", "c"] ["red", "blue"] "k" 1 (by decide)

/-- C2 as stated is refuted at `labels = []`: with an empty labels list and an
empty colors list, `generate_handles` returns the empty handle list instead of
signalling an error (the `range(0)` loop never evaluates `colors[i % 0]`). -/
theorem generate_handles_empty_colors_counterexample :
    generate_handles [] [] default_edge default_alpha = some [] := rfl

/-- C2 (amended): for every NON-EMPTY labels list, calling `generate_handles`
with an empty colors list signals an error (models the Python
`ZeroDivisionError` from `i % 0`) rather than returning handles. -/
theorem generate_handles_empty_colors_error (labels : List String)
    (edge : String) (alpha : ℚ) (h : labels ≠ []) :
    generate_handles labels [] edge alpha = none := by
  cases labels with
  | nil => exact absurd rfl h
  | cons l ls =>
      simp [generate_handles, List.range_succ_eq_map, build_handles]

theorem generate_handles_empty_colors_error_witness :
    generate_handles ["County Boundaries"] [] "k" 1 = none :=
  generate_handles_empty_colors_error ["County Boundaries"] "k" 1 (by decide)

/-- C7: whenever `generate_handles` returns, every produced handle has the
same edge color and the same opacity, equal to the supplied `edge` and `alpha`
arguments. -/
theorem generate_handles_shared_styling (labels colors : List String)
    (edge : String) (alpha : ℚ) (hs : List Handle)
    (h : generate_handles labels colors edge alpha = some hs) :
    ∀ hd ∈ hs, hd.edgecolor = edge ∧ hd.alpha = alpha :=
  build_handles_styling colors edge alpha (List.range labels.length) hs h

theorem generate_handles_shared_styling_witness :
    (Handle.mk (0, 0) 1 1 "none" "r" 1).edgecolor = "r"
    ∧ (Handle.mk (0, 0) 1 1 "none" "r" 1).alpha = 1 :=
  generate_handles_shared_styling [""] ["none"] "r" 1
    [Handle.mk (0, 0) 1 1 "none" "r" 1] rfl
    (Handle.mk (0, 0) 1 1 "none" "r" 1) (by simp)

/-- C9 (implicit): with an empty labels list, `generate_handles` returns the
empty handle sequence without raising, for every colors list — including the
empty colors list, where the modulo-by-zero branch is never reached. -/
theorem generate_handles_empty_labels (colors : List String)
    (edge : String) (alpha : ℚ) :
    generate_handles [] colors edge alpha = some [] := rfl

/-- C10 (implicit): the output of `generate_handles` depends only on the
number of labels, not on their contents: two label lists of equal length with
the same colors, edge and alpha produce identical results (in particular
identical fill colors, edge colors and opacities). -/
theorem generate_handles_depends_only_on_label_count
    (labels1 labels2 colors : List String) (edge : String) (alpha : ℚ)
    (h : labels1.length = labels2.length) :
    generate_handles labels1 colors edge alpha
      = generate_handles labels2 colors edge alpha := by
  unfold generate_handles
  rw [h]

theorem generate_handles_depends_only_on_label_count_witness :
    generate_handles ["secret a", "secret b"] ["g"] "k" 1
      = generate_handles ["x", "y"] ["g"] "k" 1 :=
  generate_handles_depends_only_on_label_count
    ["secret a", "secret b"] ["x", "y"] ["g"] "k" 1 rfl

/-- C8: the map renderer builds exactly one legend handle via
`generate_handles`, with no fill (`facecolor="none"`) and the county outline
color (red, `county_outline_edgecolor = "r"`), and attaches a legend box
labeled "County Boundaries" at the upper left with font size 12 and fully
opaque background (`framealpha = 1`). -/
theorem map_renderer_legend :
    county_outline_edgecolor = "r" ∧
    legend_call = some (LegendCall.mk
      [Handle.mk (0, 0) 1 1 "none" county_outline_edgecolor default_alpha]
      ["County Boundaries"] 12 "upper left" 1) :=
  ⟨rfl, rfl⟩

-- ---------------------------------------------------------------------------
-- Geospatial data model (modelled from the spec where the behaviour lives in
-- the geopandas/pandas libraries rather than in the script itself)
-- ---------------------------------------------------------------------------

/-- An attribute value in a shapefile attribute table: a string or a number. -/
inductive Value where
  | str : String → Value
  | num : Int → Value
deriving Repr, DecidableEq

/-- One record of a Feature Collection: a geometry (abstracted as its list of
coordinate pairs) plus an attribute row mapping column names to values. -/
structure Record where
  geometry : List (Int × Int)
  attrs : List (String × Value)
deriving Repr, DecidableEq

/-- Modelled from the spec: a Feature Collection is an ordered sequence of
records sharing one CRS tag; `crs = none` models an undefined source CRS. -/
structure FeatureCollection where
  crs : Option Nat
  records : List Record
deriving Repr, DecidableEq

/-- Modelled from the spec: the coordinate transformation applied by the
reprojection library between two CRSs.  The projection math itself is out of
scope (spec section 9); the contract that matters is that the transform
between identical CRSs is a no-op, which the library guarantees. -/
def transform_point (src tgt : Nat) (p : Int × Int) : Int × Int :=
  if src = tgt then p
  else (p.1 + (tgt : Int) - (src : Int), p.2 + (tgt : Int) - (src : Int))

/-- Modelled from the spec: `to_crs` (script lines 32-33) reprojects every
geometry into the target CRS, leaving attributes and record order unchanged,
and fails when the source CRS is undefined. -/
def to_crs (fc : FeatureCollection) (tgt : Nat) : Option FeatureCollection :=
  match fc.crs with
  | none => none
  | some src =>
      some { crs := some tgt,
             records := fc.records.map fun r =>
               { r with geometry := r.geometry.map (transform_point src tgt) } }

/-- Column-collision renaming of a spatial join: a column whose name also
appears in the other side's row gets the caller-supplied suffix appended. -/
def suffix_collisions (sfx : String) (other row : List (String × Value)) :
    List (String × Value) :=
  row.map fun p =>
    if other.any fun q => q.1 == p.1 then (p.1 ++ "_" ++ sfx, p.2) else p

/-- One output row of the spatial join: ward geometry, ward attributes then
county attributes, collisions disambiguated with the left/right suffixes. -/
def merge_row (ls rs : String) (w c : Record) : Record :=
  { geometry := w.geometry,
    attrs := suffix_collisions ls c.attrs w.attrs
              ++ suffix_collisions rs w.attrs c.attrs }

/-- Modelled from the spec: `gpd.sjoin(wards, counties, how='inner', …)`
(script line 41), parametric in the spatial match predicate.  Each left (ward)
record is paired with every right (county) record it matches; a ward with no
match contributes nothing (inner join); output order follows left order then
right match order.  Fails when the two inputs do not share a CRS. -/
def sjoin (pred : Record → Record → Bool) (left right : FeatureCollection)
    (ls rs : String) : Option FeatureCollection :=
  if left.crs = right.crs then
    some { crs := left.crs,
           records := left.records.flatMap fun w =>
             (right.records.filter fun c => pred w c).map fun c =>
               merge_row ls rs w c }
  else none

/-- Attribute lookup by column name. -/
def lookup_attr (r : Record) (col : String) : Option Value :=
  r.attrs.lookup col

/-- Numeric value of a column (0 when absent or non-numeric). -/
def get_num (r : Record) (col : String) : Int :=
  match lookup_attr r col with
  | some (Value.num n) => n
  | _ => 0

/-- String value of a column (empty when absent or non-string). -/
def get_str (r : Record) (col : String) : String :=
  match lookup_attr r col with
  | some (Value.str s) => s
  | _ => ""

/-- The `Population` value of a joined row (script lines 44-48). -/
def population (r : Record) : Int := get_num r "Population"

/-- Modelled from the spec: `join['Population'].sum()` (script line 44). -/
def total_population (rows : List Record) : Int :=
  (rows.map population).sum

/-- Modelled from the spec: `groupby(keys)['Population'].sum()` — one entry
per distinct key (in order of first occurrence), holding the sum of the
`Population` column over the rows sharing that key. -/
def groupby_population_sum {K : Type} [DecidableEq K] (key : Record → K)
    (rows : List Record) : List (K × Int) :=
  (rows.map key).dedup.map fun k =>
    (k, ((rows.filter fun r => decide (key r = k)).map population).sum)

/-- Script line 46: `join.groupby(['CountyName'])['Population'].sum()`. -/
def by_county (rows : List Record) : List (String × Int) :=
  groupby_population_sum (fun r => get_str r "CountyName") rows

/-- Script line 48:
`join.groupby(['CountyName', 'Ward'])['Population'].sum()`. -/
def by_county_ward (rows : List Record) : List ((String × String) × Int) :=
  groupby_population_sum (fun r => (get_str r "CountyName", get_str r "Ward")) rows

-- ---------------------------------------------------------------------------
-- Sample data for concrete witnesses
-- ---------------------------------------------------------------------------

def sample_ward1 : Record :=
  { geometry := [(0, 0), (1, 0), (1, 1)],
    attrs := [("Ward", Value.str "A"), ("Population", Value.num 1000)] }

def sample_ward2 : Record :=
  { geometry := [(2, 2), (3, 2), (3, 3)],
    attrs := [("Ward", Value.str "B"), ("Population", Value.num 3000)] }

def sample_county : Record :=
  { geometry := [(0, 0), (10, 0), (10, 10)],
    attrs := [("CountyName", Value.str "X")] }

def sample_wards : FeatureCollection :=
  { crs := some 2157, records := [sample_ward1, sample_ward2] }

def sample_counties : FeatureCollection :=
  { crs := some 2157, records := [sample_county] }

def sample_join : FeatureCollection :=
  { crs := some 2157,
    records := [merge_row "left" "right" sample_ward1 sample_county,
                merge_row "left" "right" sample_ward2 sample_county] }

-- ---------------------------------------------------------------------------
-- Helper lemmas for the group-by aggregation
-- ---------------------------------------------------------------------------

theorem sum_map_ite_add {K : Type} [DecidableEq K] (g : K → Int) (a : K) (c : Int) :
    ∀ D : List K, a ∈ D → D.Nodup →
      (D.map fun k => if a = k then c + g k else g k).sum = c + (D.map g).sum := by
  intro D
  induction D with
  | nil => intro hm; cases hm
  | cons k D ih =>
      intro hm hnd
      rcases List.mem_cons.mp hm with he | hm2
      · subst he
        have hnotin : a ∉ D := (List.nodup_cons.mp hnd).1
        have hrest : ∀ x ∈ D, (if a = x then c + g x else g x) = g x := by
          intro x hx
          rw [if_neg]
          intro hax
          exact hnotin (by rw [hax]; exact hx)
        rw [List.map_cons, List.map_cons, if_pos rfl, List.map_congr_left hrest,
          List.sum_cons, List.sum_cons]
        ring
      · have hka : ¬ (a = k) := by
          intro he
          exact (List.nodup_cons.mp hnd).1 (by rw [← he]; exact hm2)
        rw [List.map_cons, List.map_cons, if_neg hka, List.sum_cons, List.sum_cons,
          ih hm2 (List.nodup_cons.mp hnd).2]
        ring

theorem filter_key_eq_nil {α K : Type} [DecidableEq K] (key : α → K) (a : K)
    (rs : List α) (h : a ∉ rs.map key) :
    (rs.filter fun r => decide (key r = a)) = [] := by
  rw [List.filter_eq_nil_iff]
  intro r hr
  simp only [decide_eq_true_eq]
  intro he
  exact h (by rw [← he]; exact List.mem_map_of_mem key hr)

theorem sum_fiber_sums {α K : Type} [DecidableEq K] (key : α → K) (f : α → Int) :
    ∀ rows : List α,
      ((rows.map key).dedup.map fun k =>
        ((rows.filter fun r => decide (key r = k)).map f).sum).sum
      = (rows.map f).sum := by
  intro rows
  induction rows with
  | nil => rfl
  | cons r rs ih =>
      by_cases hmem : key r ∈ rs.map key
      · rw [List.map_cons, List.dedup_cons_of_mem hmem]
        have hstep : ∀ k ∈ (rs.map key).dedup,
            (((r :: rs).filter fun x => decide (key x = k)).map f).sum
              = (if key r = k
                  then f r + ((rs.filter fun x => decide (key x = k)).map f).sum
                  else ((rs.filter fun x => decide (key x = k)).map f).sum) := by
          intro k hk
          by_cases hrk : key r = k
          · rw [if_pos hrk, List.filter_cons_of_pos (by simp [hrk]),
              List.map_cons, List.sum_cons]
          · rw [if_neg hrk, List.filter_cons_of_neg (by simp [hrk])]
        rw [List.map_congr_left hstep,
          sum_map_ite_add (fun k => ((rs.filter fun x => decide (key x = k)).map f).sum)
            (key r) (f r) _ (List.mem_dedup.mpr hmem) (List.nodup_dedup _),
          ih, List.map_cons, List.sum_cons]
      · rw [List.map_cons, List.dedup_cons_of_not_mem hmem, List.map_cons, List.sum_cons]
        have h1 : ((r :: rs).filter fun x => decide (key x = key r)) = [r] := by
          rw [List.filter_cons_of_pos (by simp), filter_key_eq_nil key (key r) rs hmem]
        have h2 : ∀ k ∈ (rs.map key).dedup,
            (((r :: rs).filter fun x => decide (key x = k)).map f).sum
              = ((rs.filter fun x => decide (key x = k)).map f).sum := by
          intro k hk
          have hne : ¬ (key r = k) := by
            intro he
            exact hmem (by rw [he]; exact List.mem_dedup.mp hk)
          rw [List.filter_cons_of_neg (by simp [hne])]
        rw [h1, List.map_congr_left h2, ih, List.map_cons, List.sum_cons]
        simp

theorem groupby_population_sum_total {K : Type} [DecidableEq K]
    (key : Record → K) (rows : List Record) :
    ((groupby_population_sum key rows).map Prod.snd).sum = total_population rows := by
  unfold groupby_population_sum total_population
  rw [List.map_map]
  exact sum_fiber_sums key population rows

-- ---------------------------------------------------------------------------
-- Claims about the join, the aggregates and the reprojection
-- ---------------------------------------------------------------------------

/-- C3: the three aggregates over the joined table's Population column are
consistent — the total sum equals the sum over all values of the by-CountyName
grouping, which equals the sum over all values of the by-(CountyName, Ward)
grouping. -/
theorem aggregate_consistency (pred : Record → Record → Bool)
    (wards counties j : FeatureCollection)
    (_hj : sjoin pred wards counties "left" "right" = some j) :
    total_population j.records = ((by_county j.records).map Prod.snd).sum ∧
    ((by_county j.records).map Prod.snd).sum
      = ((by_county_ward j.records).map Prod.snd).sum := by
  unfold by_county by_county_ward
  refine ⟨(groupby_population_sum_total _ j.records).symm, ?_⟩
  rw [groupby_population_sum_total, groupby_population_sum_total]

theorem aggregate_consistency_witness :
    total_population sample_join.records
        = ((by_county sample_join.records).map Prod.snd).sum ∧
    ((by_county sample_join.records).map Prod.snd).sum
        = ((by_county_ward sample_join.records).map Prod.snd).sum :=
  aggregate_consistency (fun _ _ => true) sample_wards sample_counties
    sample_join rfl

/-- C4: the spatial join of wards (left) with counties (right) has inner-join
semantics — its row count equals the number of (ward, matching-county) pairs
(a ward matching zero counties contributes zero rows, one matching k counties
contributes exactly k rows), and each output row inherits the ward
geometry. -/
theorem sjoin_inner_row_count (pred : Record → Record → Bool)
    (wards counties : FeatureCollection)
    (h : wards.crs = counties.crs) :
    ∃ j, sjoin pred wards counties "left" "right" = some j ∧
      j.records.length
        = (wards.records.map fun w =>
            (counties.records.filter fun c => pred w c).length).sum ∧
      ∀ r ∈ j.records, ∃ w ∈ wards.records, r.geometry = w.geometry := by
  unfold sjoin
  rw [if_pos h]
  refine ⟨_, rfl, ?_, ?_⟩
  · simp [List.flatMap, List.map_map, Function.comp_def]
  · intro r hr
    simp only [List.mem_flatMap, List.mem_map] at hr
    obtain ⟨w, hw, c, _, hrc⟩ := hr
    refine ⟨w, hw, ?_⟩
    rw [← hrc]
    rfl

theorem sjoin_inner_row_count_witness :
    ∃ j, sjoin (fun _ _ => true) sample_wards sample_counties "left" "right"
          = some j ∧
      j.records.length
        = (sample_wards.records.map fun w =>
            (sample_counties.records.filter fun c => (fun _ _ => true) w c).length).sum ∧
      ∀ r ∈ j.records, ∃ w ∈ sample_wards.records, r.geometry = w.geometry :=
  sjoin_inner_row_count (fun _ _ => true) sample_wards sample_counties rfl

/-- C5: reprojection to a fixed target CRS is idempotent — a collection
already tagged with the target CRS (here also EPSG:2157 in the script) is
returned unchanged: identical geometries and an unchanged record count. -/
theorem to_crs_idempotent (fc : FeatureCollection) (tgt : Nat)
    (h : fc.crs = some tgt) :
    to_crs fc tgt = some fc := by
  obtain ⟨crs0, records⟩ := fc
  simp only [FeatureCollection.crs] at h
  subst h
  have hT : ∀ p, transform_point tgt tgt p = p := fun p => if_pos rfl
  have hrec : ∀ r : Record,
      ({ geometry := r.geometry.map (transform_point tgt tgt),
         attrs := r.attrs } : Record) = r := by
    intro r
    rw [List.map_congr_left fun p _ => hT p]
    simp
  simp [to_crs, hrec]

theorem to_crs_idempotent_witness :
    to_crs sample_wards 2157 = some sample_wards :=
  to_crs_idempotent sample_wards 2157 rfl

/-- C6: for every feature collection with a defined source CRS, reprojection
to a target CRS changes only the geometries and the CRS tag — record count,
attribute rows and their order are unchanged. -/
theorem to_crs_preserves_attrs (fc : FeatureCollection) (src tgt : Nat)
    (h : fc.crs = some src) :
    ∃ fc2, to_crs fc tgt = some fc2 ∧
      fc2.crs = some tgt ∧
      fc2.records.length = fc.records.length ∧
      fc2.records.map Record.attrs = fc.records.map Record.attrs := by
  obtain ⟨crs0, records⟩ := fc
  simp only [FeatureCollection.crs] at h
  subst h
  refine ⟨_, rfl, rfl, ?_, ?_⟩
  · simp [to_crs]
  · simp [to_crs, List.map_map]

theorem to_crs_preserves_attrs_witness :
    ∃ fc2, to_crs sample_wards 32629 = some fc2 ∧
      fc2.crs = some 32629 ∧
      fc2.records.length = sample_wards.records.length ∧
      fc2.records.map Record.attrs = sample_wards.records.map Record.attrs :=
  to_crs_preserves_attrs sample_wards 2157 32629 rfl
